/-
Formal model of resize_compress.py.

The source is a small batch image resizer/compressor:
 * `is_network_path` classifies a directory as network-mounted or local;
 * `process_image` decodes an image, captures EXIF/ICC metadata, applies
   EXIF orientation, normalizes color mode, proportionally downsizes so the
   longer side is at most `max_side`, and re-encodes as JPEG, catching every
   exception and turning it into a per-file failure string;
 * `main` filters eligible files of a directory, picks a sequential or
   parallel execution strategy from the locality classification, and exits
   with status 1 only on a missing/non-directory target.

This file embeds those functions as executable Lean definitions and proves
the specification's claims about them.  Python machine integers are Nat
(all the quantities involved are non-negative).  The resize arithmetic of
lines 69-72 is modelled twice: `resizedDims` is the exact-arithmetic
idealization (truncating natural division `w * maxSide / max w h`), and
`resizedDimsFloat` is bit-faithful to Python's IEEE binary64 semantics —
`max_side / max(w, h)` and `w * ratio` are correctly rounded
(round-to-nearest, ties-to-even, 53-bit significand, modelled over exact
rationals by `fl`), and `int(...)` truncates.  The two agree except for a
one-pixel truncation slack, which matters for the claim that the longer
output side lands exactly on `maxSide` (it can land one below; see the C1
counterexample) but not for the no-upscaling claim.  Exceptions are
modelled with `Except`/`Option` and an environment that can inject a
failure into each I/O step.
-/
import Mathlib

namespace ResizeCompress

/-- Lines 69-72 of `process_image`, as exact arithmetic:
`ratio = max_side / max(w, h); if ratio < 1: img = img.resize((int(w*ratio), int(h*ratio)), LANCZOS)`
with the ratio taken as an exact rational, under which `ratio < 1` is
`maxSide < max w h` and `int(w * ratio)` is the floor `w * maxSide / max w h`
(Nat division).  This is the idealization the spec describes; the program
actually computes the ratio and the products in IEEE binary64, which is
modelled bit-faithfully by `resizedDimsFloat` below and deviates from this
idealization by at most one pixel per dimension (`downscale_dims_float`). -/
def resizedDims (maxSide w h : Nat) : Nat × Nat :=
  if maxSide < max w h then
    (w * maxSide / max w h, h * maxSide / max w h)
  else
    (w, h)

/-- `2 ^ e` in `ℚ` for an integer exponent, in an executable form (kernel
evaluation never has to unfold `zpow`). -/
def twoPow (e : ℤ) : ℚ :=
  if 0 ≤ e then ((2 ^ e.toNat : ℕ) : ℚ) else 1 / ((2 ^ (-e).toNat : ℕ) : ℚ)

/-- Round a rational to the nearest integer, ties to even — IEEE 754's
default rounding, applied below to a scaled significand. -/
def rne (x : ℚ) : ℤ :=
  if x - ⌊x⌋ < 1 / 2 then ⌊x⌋
  else if 1 / 2 < x - ⌊x⌋ then ⌊x⌋ + 1
  else if ⌊x⌋ % 2 = 0 then ⌊x⌋ else ⌊x⌋ + 1

/-- Fuelled base-2 `Nat.log` (largest `k` with `2 ^ k ≤ n`, and 0 for
`n ≤ 1`): structurally recursive so that the kernel can evaluate it, and
proved equal to `Nat.log 2` below. -/
def natLog2Aux : Nat → Nat → Nat
  | 0, _ => 0
  | fuel + 1, n => if 2 ≤ n then natLog2Aux fuel (n / 2) + 1 else 0

/-- `Nat.log 2`, executable by kernel reduction. -/
def natLog2 (n : Nat) : Nat := natLog2Aux n n

/-- Fuelled base-2 `Nat.clog` (smallest `k` with `n ≤ 2 ^ k`), structurally
recursive; proved equal to `Nat.clog 2` below. -/
def natClog2Aux : Nat → Nat → Nat
  | 0, _ => 0
  | fuel + 1, n => if 2 ≤ n then natClog2Aux fuel ((n + 1) / 2) + 1 else 0

/-- `Nat.clog 2`, executable by kernel reduction. -/
def natClog2 (n : Nat) : Nat := natClog2Aux n n

/-- `⌊log₂ q⌋` of a positive rational (mirroring `Int.log 2`, to which it
is proved equal): the binade a positive value falls in. -/
def ratLog2 (q : ℚ) : ℤ :=
  if 1 ≤ q then (natLog2 ⌊q⌋₊ : ℤ) else -(natClog2 ⌈q⁻¹⌉₊ : ℤ)

/-- Binary64 rounding of a positive rational: scale into the binade of
53-bit significands `[2^52, 2^53)`, round to nearest (ties to even), scale
back.  Non-positive inputs (which reach this model only as the product
`0 * ratio` for a zero dimension) map to 0; overflow and subnormals are
unreachable at image magnitudes.  Python's `a / b` on machine ints and
`x * y` on floats return exactly `fl` of the exact rational result. -/
def fl (q : ℚ) : ℚ :=
  if 0 < q then
    (rne (q * twoPow (-(ratLog2 q - 52))) : ℚ) * twoPow (ratLog2 q - 52)
  else 0

/-- The relative rounding-error bound of binary64: `2 ^ (-53)`. -/
def eps : ℚ := 1 / 2 ^ 53

/-- Lines 69-72 of `process_image`, bit-faithful to Python's semantics:
`ratio = max_side / max(w, h)` is the correctly rounded binary64 quotient,
the branch tests `ratio < 1` on that rounded value, and `int(w * ratio)`
truncates the correctly rounded binary64 product toward zero (floor, on
these non-negative values). -/
def resizedDimsFloat (maxSide w h : Nat) : Nat × Nat :=
  let ratio := fl ((maxSide : ℚ) / ((max w h : ℕ) : ℚ))
  if ratio < 1 then
    ((⌊fl ((w : ℚ) * ratio)⌋).toNat, (⌊fl ((h : ℚ) * ratio)⌋).toNat)
  else (w, h)

/-- A decoded PIL image, as far as `process_image` observes it: pixel
dimensions, color mode, and the two metadata payloads found in `img.info`.
The EXIF block is abstracted as a list of (tag, value) pairs (a faithful
rendering of the byte payload for identity purposes; tag 274 is the
orientation tag); `img.info` may lack the key (`none`) or hold an empty
payload. The ICC profile is an opaque byte list, absent when the key is
missing. -/
structure Image where
  width : Nat
  height : Nat
  mode : String
  exifInfo : Option (List (Nat × Nat))
  iccInfo : Option (List Nat)
deriving DecidableEq, Repr

/-- The EXIF orientation tag number (0x0112). -/
def orientationTag : Nat := 274

/-- `ImageOps.exif_transpose`: if the image's EXIF block carries an
orientation tag with value 2..8, physically re-orient the pixels (values
5..8 swap width and height) and return a copy whose EXIF block has the
orientation tag removed; otherwise return the image unchanged. -/
def exifTranspose (img : Image) : Image :=
  let block := img.exifInfo.getD []
  match block.lookup orientationTag with
  | none => img
  | some o =>
    if 2 ≤ o ∧ o ≤ 8 then
      let stripped := block.filter (fun p => p.1 ≠ orientationTag)
      if 5 ≤ o then
        { img with width := img.height, height := img.width,
                   exifInfo := some stripped }
      else
        { img with exifInfo := some stripped }
    else img

/-- The JPEG file produced by `img.save(output_path, **save_kwargs)`:
dimensions, quality, the `optimize` flag, and the metadata blocks that were
passed as keyword arguments (absent keyword = absent block). -/
structure Jpeg where
  width : Nat
  height : Nat
  quality : Nat
  optimize : Bool
  exif : Option (List (Nat × Nat))
  icc : Option (List Nat)
deriving DecidableEq, Repr

/-- The outcome of one `process_image` call: the function returns a string,
either `"[OK] <src> -> <dst>"` or `"[ERR] <src>: <cause>"`; we keep the
structured form and render it below. -/
inductive TransformResult where
  | ok (src dst : String)
  | err (src cause : String)
deriving DecidableEq, Repr

/-- The exact result string `process_image` returns. -/
def render : TransformResult → String
  | .ok s d => "[OK] " ++ s ++ " -> " ++ d
  | .err s c => "[ERR] " ++ s ++ ": " ++ c

/-- Filesystem side effects a single `process_image` call can perform. -/
inductive Effect where
  | createdDir
  | wrote (dst : String) (j : Jpeg)
deriving DecidableEq, Repr

/-- The environment of one `process_image` call: what `Image.open` yields
(or the exception it raises), whether the output directory already exists,
and the exception (if any) raised by `mkdir` or by `img.save`. -/
structure Env where
  decoded : Except String Image
  outDirExists : Bool
  mkdirErr : Option String
  saveErr : Option String

/-- Lines 66-67 of the source, the alpha/palette normalization:
`if img.mode in ("RGBA", "LA", "P"): img = img.convert("RGB")`.
Pixel dimensions and metadata are unchanged. -/
def normalizeMode (img : Image) : Image :=
  if img.mode = "RGBA" ∨ img.mode = "LA" ∨ img.mode = "P"
  then { img with mode := "RGB" } else img

/-- Lines 57-83 of the source: the whole `process_image` body, returning the
result together with the list of filesystem effects it performed. Mirrors
the source order: capture `exif_data = img.info.get('exif', b'')` and
`icc_profile = img.info.get('icc_profile')` first, then
`ImageOps.exif_transpose`, then the RGBA/LA/P -> RGB conversion
(`normalizeMode`), then the ratio computation (which raises
`ZeroDivisionError` on a 0 x 0 image) and conditional resize, then
`mkdir(parents=True, exist_ok=True)`, then `save` with `exif`/`icc_profile`
keywords present only when the captured values are truthy (non-empty).
Every exception is caught and becomes an `err` result. -/
def processImage (env : Env) (inputName outputName : String)
    (maxSide jpegQuality : Nat) : TransformResult × List Effect :=
  match env.decoded with
  | .error e => (.err inputName e, [])
  | .ok img0 =>
    let exifData := img0.exifInfo.getD []
    let iccProfile := img0.iccInfo
    let img2 := normalizeMode (exifTranspose img0)
    if max img2.width img2.height = 0 then
      (.err inputName ("division by zero"), [])
    else
      let dims := resizedDims maxSide img2.width img2.height
      let img3 := { img2 with width := dims.1, height := dims.2 }
      match env.mkdirErr with
      | some e => (.err inputName e, [])
      | none =>
        let dirEffs := if env.outDirExists then [] else [Effect.createdDir]
        match env.saveErr with
        | some e => (.err inputName e, dirEffs)
        | none =>
          let j : Jpeg :=
            { width := img3.width, height := img3.height,
              quality := jpegQuality, optimize := true,
              exif := if exifData = [] then none else some exifData,
              icc := match iccProfile with
                     | none => none
                     | some b => if b = [] then none else some b }
          (.ok inputName outputName, dirEffs ++ [Effect.wrote outputName j])

/-- Whether an effect is a file write. -/
def isWrite : Effect → Bool
  | .wrote _ _ => true
  | .createdDir => false

/-- The JPEG written by a call, extracted from its effect list. -/
def written (effs : List Effect) : Option Jpeg :=
  match effs.filterMap (fun e => match e with
    | .wrote _ j => some j
    | .createdDir => none) with
  | [] => none
  | j :: _ => some j

/-- Python `str.rfind('.')` on a character list: the index of the last dot,
or `none` when there is no dot (Python returns -1). -/
def pyRFindDot (cs : List Char) : Option Nat :=
  match cs.reverse.findIdx? (fun c => c == '.') with
  | none => none
  | some j => some (cs.length - 1 - j)

/-- `pathlib.PurePath.suffix` of a final path component: `name[i:]` where
`i = name.rfind('.')`, provided `0 < i < len(name) - 1`, else the empty
string. -/
def pySuffix (name : String) : String :=
  let cs := name.toList
  match pyRFindDot cs with
  | none => ""
  | some i => if 0 < i ∧ i < cs.length - 1 then String.mk (cs.drop i) else ""

/-- `pathlib.PurePath.stem` of a final path component: `name[:i]` under the
same condition as `pySuffix`, else the whole name. -/
def pyStem (name : String) : String :=
  let cs := name.toList
  match pyRFindDot cs with
  | none => name
  | some i => if 0 < i ∧ i < cs.length - 1 then String.mk (cs.take i) else name

/-- Python `str.lower()` (the extensions involved are ASCII). -/
def strLower (s : String) : String := String.mk (s.toList.map Char.toLower)

/-- Line 102: the fixed tuple of eligible extensions. -/
def exts : List String :=
  [".jpg", ".jpeg", ".png", ".tif", ".tiff", ".webp", ".heic", ".heif", ".bmp"]

/-- A direct child of the input directory as `iterdir` yields it: its final
name and whether it is a regular file. -/
structure Entry where
  name : String
  isFile : Bool
deriving DecidableEq, Repr

/-- Line 103's filter condition: `p.suffix.lower() in exts and p.is_file()`. -/
def eligible (e : Entry) : Bool :=
  decide (strLower (pySuffix e.name) ∈ exts) && e.isFile

/-- Line 103: `files = [p for p in input_dir.iterdir() if p.suffix.lower()
in exts and p.is_file()]` — the direct, non-recursive children passing the
filter, in discovery order. -/
def discover (entries : List Entry) : List Entry := entries.filter eligible

/-- Lines 114 and 119: the destination file name `f"{p.stem}.jpg"` inside
the `compressed` output directory. -/
def destName (srcName : String) : String := pyStem srcName ++ ".jpg"

/-- Sequential execution (lines 113-115): one transform per file, in
discovery order. `tf` abstracts one `process_image` call on a file name. -/
def runSeq (tf : String → TransformResult) (files : List Entry) :
    List TransformResult :=
  files.map (fun e => tf e.name)

/-- Parallel execution (lines 119-124): all files are submitted to the
pool and results are collected with `as_completed`, i.e. in an arbitrary
completion order, modelled as a list of indices into the submitted tasks.
When `order` is a permutation of all indices — which `as_completed` over
the full future list guarantees — every submitted file is collected exactly
once. -/
def runPar (tf : String → TransformResult) (files : List Entry)
    (order : List (Fin files.length)) : List TransformResult :=
  order.map (fun i => tf (files.get i).name)

/-- A concrete image with both metadata blocks, including the orientation
tag (value 6, rotate). -/
def imgWithMeta : Image :=
  { width := 4000, height := 3000, mode := "RGB",
    exifInfo := some [(orientationTag, 6), (306, 99)],
    iccInfo := some [1, 2, 3] }

/-- A benign environment: decoding yields `imgWithMeta` and no I/O step
fails. -/
def envOkMeta : Env :=
  { decoded := Except.ok imgWithMeta, outDirExists := false,
    mkdirErr := none, saveErr := none }

/-- A 32-bit-integer grayscale image (PIL mode `I`, produced e.g. by a
16-bit grayscale PNG): its mode is not in (`RGBA`, `LA`, `P`), so it is not
converted, and `img.save(..., format="JPEG")` raises
`OSError: cannot write mode I as JPEG`. -/
def imgGray32 : Image :=
  { width := 100, height := 50, mode := "I", exifInfo := none,
    iccInfo := none }

/-- Environment for the C9 counterexample: decode succeeds, the output
directory does not yet exist, `mkdir` succeeds, and `save` raises. -/
def envSaveFail : Env :=
  { decoded := Except.ok imgGray32, outDirExists := false,
    mkdirErr := none, saveErr := some ("cannot write mode I as JPEG") }

/-- A mixed directory listing: an uppercase-extension image, a non-image
file, a directory whose name looks like an image, and a lowercase image. -/
def entriesMix : List Entry :=
  [{ name := "a.JPG", isFile := true }, { name := "b.txt", isFile := true },
   { name := "c.png", isFile := false }, { name := "d.png", isFile := true }]

/-- A transform stub standing in for a successful `process_image` call. -/
def tfOkStub : String → TransformResult :=
  fun s => TransformResult.ok s (destName s)

/-- A reversed completion order for the two eligible files of
`entriesMix`. -/
def orderSwap : List (Fin (discover entriesMix).length) :=
  [⟨1, by decide⟩, ⟨0, by decide⟩]

/-- Overwriting write into a flat destination directory, modelled as an
association list from destination name to the source it came from:
`img.save(output_path, ...)` replaces any file already at that path. -/
def fsWrite (fs : List (String × String)) (dst content : String) :
    List (String × String) :=
  (dst, content) :: fs.filter (fun kv => kv.1 != dst)

/-- Run the per-file saves of a task list (source name, content) in order,
each writing to `destName` of its source, starting from an empty output
directory. -/
def runWrites (tasks : List (String × String)) : List (String × String) :=
  tasks.foldl (fun fs t => fsWrite fs (destName t.1) t.2) []

/-- The execution strategy `main` picks once per run. -/
inductive Strategy where
  | sequential
  | parallel (workers : Nat)
deriving DecidableEq, Repr

/-- Line 117: `cores = os.cpu_count() or 1`. `os.cpu_count()` returns
`None` when the count is undeterminable; `or` replaces any falsy value
(`None` or 0) with 1. -/
def coresOf (cpuCount : Option Nat) : Nat :=
  match cpuCount with
  | none => 1
  | some n => if n = 0 then 1 else n

/-- Lines 108-120: classify once, then branch — sequential on the calling
thread for a network path, a `ProcessPoolExecutor` with `max_workers =
cores` otherwise. -/
def selectStrategy (net : Bool) (cpuCount : Option Nat) : Strategy :=
  if net then Strategy.sequential else Strategy.parallel (coresOf cpuCount)

/-- An observable scheduling event: a transform starting on a file, or its
result line being printed. -/
inductive Event where
  | start (name : String)
  | report (line : String)
deriving DecidableEq, Repr

/-- Lines 113-115, the sequential loop as an event trace: each file's
transform starts, runs to completion, and its result is printed before the
next file starts. -/
def seqEvents (tf : String → TransformResult) : List Entry → List Event
  | [] => []
  | e :: rest =>
    Event.start e.name :: Event.report (render (tf e.name))
      :: seqEvents tf rest

/-- Running count of in-flight transforms along a trace, tracking its
maximum. A transform is in flight from its `start` to its `report`. -/
def maxInFlightAux : List Event → Nat → Nat → Nat
  | [], _, acc => acc
  | Event.start _ :: rest, cur, acc =>
    maxInFlightAux rest (cur + 1) (max acc (cur + 1))
  | Event.report _ :: rest, cur, acc => maxInFlightAux rest (cur - 1) acc

/-- The maximum number of transforms simultaneously in flight. -/
def maxInFlight (evs : List Event) : Nat := maxInFlightAux evs 0 0

/-- The printed result lines of a trace, in print order. -/
def reportLines : List Event → List String
  | [] => []
  | Event.report s :: rest => s :: reportLines rest
  | Event.start _ :: rest => reportLines rest

/-- The drive-letter extraction of lines 43-45: take `path.drive`; if that
is empty but the path's second character is a colon, take the first two
characters. -/
def driveOf (sPath driveAttr : String) : String :=
  if driveAttr = "" ∧ 2 ≤ sPath.toList.length ∧ sPath.toList.get? 1 = some ':'
  then String.mk (sPath.toList.take 2) else driveAttr

/-- Lines 35-54, `is_network_path`. The whole body is wrapped in
`try/except` returning `False` on any exception; the only fallible step is
the `ctypes.windll.kernel32.GetDriveTypeW` probe (an `AttributeError` on
non-Windows platforms, or any API failure), modelled as `probe = none`.
A successful probe is a pure function from the drive string (with a
trailing backslash appended) to the Windows drive-type code;
`DRIVE_REMOTE = 4`. UNC paths — those starting with two backslashes — are
classified network before the probe is consulted. The function is total:
it always returns a Bool and performs no effects. -/
def isNetworkPath (probe : Option (String → Nat)) (sPath driveAttr : String) :
    Bool :=
  if sPath.toList.take 2 = ['\\', '\\'] then true
  else
    let drive := driveOf sPath driveAttr
    if drive = "" then false
    else match probe with
      | none => false
      | some getDriveType => getDriveType (drive ++ "\\") == 4

/-- A probe standing in for `GetDriveTypeW` on a machine where drive `Z:`
is a mapped network drive. -/
def driveProbeZ : String → Nat :=
  fun d => if d = "Z:\\" then 4 else 3

/-- What `main` observes of its target directory: the two `Path` checks of
line 96 and the directory listing. -/
structure MainCfg where
  dirExists : Bool
  dirIsDir : Bool
  entries : List Entry

/-- The three terminal states of `main`: `sys.exit(1)` on a bad target
(before any listing or processing), `sys.exit(0)` after the "No images
found" notice, or falling off the end of `main` (exit status 0) with the
per-file results printed. -/
inductive MainOutcome where
  | configError
  | noImages
  | processed (results : List TransformResult)
deriving DecidableEq, Repr

/-- Lines 95-127 of `main`, reduced to outcome and exit status: exit 1 if
the target does not exist or is not a directory; exit 0 with a notice if no
eligible files; otherwise process every eligible file (the result list is
the sequential one; by C5 any completion order is a permutation of it) and
exit 0. -/
def mainRun (cfg : MainCfg) (tf : String → TransformResult) :
    MainOutcome × Nat :=
  if !(cfg.dirExists && cfg.dirIsDir) then (MainOutcome.configError, 1)
  else
    let files := discover cfg.entries
    if files.isEmpty then (MainOutcome.noImages, 0)
    else (MainOutcome.processed (runSeq tf files), 0)

/-- A missing target directory. -/
def cfgMissing : MainCfg :=
  { dirExists := false, dirIsDir := false, entries := [] }

/-- An existing directory with no eligible files. -/
def cfgNoImages : MainCfg :=
  { dirExists := true, dirIsDir := true,
    entries := [{ name := "notes.txt", isFile := true }] }

/-- An existing directory with eligible files. -/
def cfgWithImages : MainCfg :=
  { dirExists := true, dirIsDir := true, entries := entriesMix }

/-- A transform stub that fails on every file, exercising the "exit 0
regardless of per-file failures" part of C8. -/
def tfErrStub : String → TransformResult :=
  fun s => TransformResult.err s "decode failed"

/-- Helper: `a * b / b = a` when `0 < b`. -/
theorem mul_div_cancel_pos {b : Nat} (hb : 0 < b) (a : Nat) :
    a * b / b = a :=
  Nat.mul_div_cancel a hb

/-- `twoPow` is the integer power of 2 in `ℚ`. -/
theorem twoPow_eq (e : ℤ) : twoPow e = (2 : ℚ) ^ e := by
  unfold twoPow
  split_ifs with h
  · rw [Nat.cast_pow, Nat.cast_ofNat, ← zpow_natCast, Int.toNat_of_nonneg h]
  · push_neg at h
    rw [Nat.cast_pow, Nat.cast_ofNat, one_div, ← zpow_natCast,
      Int.toNat_of_nonneg (by omega), ← zpow_neg, neg_neg]

/-- `twoPow` at a natural-number exponent. -/
theorem twoPow_ofNat (n : ℕ) : twoPow (n : ℤ) = (2 : ℚ) ^ n := by
  rw [twoPow_eq, zpow_natCast]

/-- `twoPow` at a negated natural-number exponent. -/
theorem twoPow_negOfNat (n : ℕ) : twoPow (-(n : ℤ)) = 1 / (2 : ℚ) ^ n := by
  rw [twoPow_eq, zpow_neg, zpow_natCast, one_div]

/-- The fuelled log agrees with `Nat.log 2` whenever the fuel covers the
argument. -/
theorem natLog2Aux_eq : ∀ (fuel n : ℕ), n ≤ fuel →
    natLog2Aux fuel n = Nat.log 2 n := by
  intro fuel
  induction fuel with
  | zero =>
    intro n hn
    have h0 : n = 0 := by omega
    subst h0
    simp [natLog2Aux]
  | succ fuel ih =>
    intro n hn
    by_cases h2 : 2 ≤ n
    · rw [natLog2Aux, if_pos h2, ih (n / 2) (by omega),
        Nat.log_of_one_lt_of_le (by norm_num) h2]
    · rw [natLog2Aux, if_neg h2]
      interval_cases n
      · simp
      · simp [Nat.log_one_right]

/-- `natLog2` computes `Nat.log 2`. -/
theorem natLog2_eq (n : ℕ) : natLog2 n = Nat.log 2 n :=
  natLog2Aux_eq n n (Nat.le_refl n)

/-- The fuelled ceiling log agrees with `Nat.clog 2` whenever the fuel
covers the argument. -/
theorem natClog2Aux_eq : ∀ (fuel n : ℕ), n ≤ fuel →
    natClog2Aux fuel n = Nat.clog 2 n := by
  intro fuel
  induction fuel with
  | zero =>
    intro n hn
    have h0 : n = 0 := by omega
    subst h0
    simp [natClog2Aux, Nat.clog_of_right_le_one]
  | succ fuel ih =>
    intro n hn
    by_cases h2 : 2 ≤ n
    · have hstep : Nat.clog 2 n = Nat.clog 2 ((n + 2 - 1) / 2) + 1 :=
        Nat.clog_of_two_le (by norm_num) h2
      have h21 : n + 2 - 1 = n + 1 := rfl
      rw [natClog2Aux, if_pos h2, ih ((n + 1) / 2) (by omega), hstep, h21]
    · rw [natClog2Aux, if_neg h2, Nat.clog_of_right_le_one (by omega)]

/-- `natClog2` computes `Nat.clog 2`. -/
theorem natClog2_eq (n : ℕ) : natClog2 n = Nat.clog 2 n :=
  natClog2Aux_eq n n (Nat.le_refl n)

/-- `ratLog2` computes `Int.log 2`, whose binade bounds Mathlib provides. -/
theorem ratLog2_eq (q : ℚ) : ratLog2 q = Int.log 2 q := by
  unfold ratLog2 Int.log
  split_ifs with h
  · rw [natLog2_eq]
  · rw [natClog2_eq]

/-- Round-to-nearest is within half a unit, in every branch (including the
tie, where either neighbor is at distance exactly 1/2). -/
theorem rne_bounds (x : ℚ) :
    x - 1 / 2 ≤ (rne x : ℚ) ∧ (rne x : ℚ) ≤ x + 1 / 2 := by
  have h1 : (⌊x⌋ : ℚ) ≤ x := Int.floor_le x
  have h2 : x < ⌊x⌋ + 1 := Int.lt_floor_add_one x
  unfold rne
  split_ifs with ha hb hc <;> constructor <;> push_cast <;> linarith

/-- Evaluation rule for `rne` when the value sits in the lower half of a
unit interval. -/
theorem rne_eq_floor {x : ℚ} {n : ℤ} (h1 : (n : ℚ) ≤ x)
    (h2 : x < (n : ℚ) + 1 / 2) : rne x = n := by
  have hfl : ⌊x⌋ = n := Int.floor_eq_iff.mpr ⟨h1, by push_cast; linarith⟩
  unfold rne
  rw [hfl, if_pos (by push_cast at h2 ⊢; linarith)]

/-- Evaluation rule for `fl` given the binade. -/
theorem fl_eq_of_log {q : ℚ} (hq : 0 < q) {L : ℤ} (hL : ratLog2 q = L) :
    fl q = (rne (q * twoPow (-(L - 52))) : ℚ) * twoPow (L - 52) := by
  unfold fl
  rw [if_pos hq, hL]

/-- `eps` as an integer power of 2. -/
theorem eps_eq_zpow : eps = (2 : ℚ) ^ (-(53 : ℤ)) := by
  rw [show (-(53 : ℤ)) = -((53 : ℕ) : ℤ) by norm_num, zpow_neg, zpow_natCast]
  norm_num [eps]

/-- The relative-error bound of binary64 rounding on positive rationals:
`fl q` lies within `q * eps` of `q` (one scaled half-ulp, since the
significand grid in `q`'s binade has spacing at most `q * 2 ^ (-52)`). -/
theorem fl_bounds {q : ℚ} (hq : 0 < q) :
    q - q * eps ≤ fl q ∧ fl q ≤ q + q * eps := by
  have hfl : fl q = (rne (q * (2 : ℚ) ^ (-(Int.log 2 q - 52))) : ℚ)
      * (2 : ℚ) ^ (Int.log 2 q - 52) := by
    unfold fl
    rw [if_pos hq, ratLog2_eq, twoPow_eq, twoPow_eq]
  set e : ℤ := Int.log 2 q - 52 with he
  have hgrid : (0 : ℚ) < (2 : ℚ) ^ e := by positivity
  have hlog : (2 : ℚ) ^ Int.log 2 q ≤ q :=
    Int.zpow_log_le_self (by norm_num) hq
  have hhalf : (2 : ℚ) ^ e * (1 / 2) ≤ q * eps := by
    have h1 : (2 : ℚ) ^ e * (1 / 2) = (2 : ℚ) ^ Int.log 2 q * eps := by
      calc (2 : ℚ) ^ e * (1 / 2)
          = (2 : ℚ) ^ e * (2 : ℚ) ^ (-(1 : ℤ)) := by
            rw [show ((2 : ℚ) ^ (-(1 : ℤ))) = 1 / 2 by norm_num]
        _ = (2 : ℚ) ^ (e + -(1 : ℤ)) := (zpow_add₀ two_ne_zero e (-1)).symm
        _ = (2 : ℚ) ^ (Int.log 2 q + -(53 : ℤ)) := by rw [he]; ring_nf
        _ = (2 : ℚ) ^ Int.log 2 q * (2 : ℚ) ^ (-(53 : ℤ)) :=
            zpow_add₀ two_ne_zero _ _
        _ = (2 : ℚ) ^ Int.log 2 q * eps := by rw [eps_eq_zpow]
    rw [h1]
    exact mul_le_mul_of_nonneg_right hlog (by norm_num [eps])
  have hy : q * (2 : ℚ) ^ (-e) * (2 : ℚ) ^ e = q := by
    rw [mul_assoc, ← zpow_add₀ (two_ne_zero : (2 : ℚ) ≠ 0), neg_add_cancel,
      zpow_zero, mul_one]
  obtain ⟨hr1, hr2⟩ := rne_bounds (q * (2 : ℚ) ^ (-e))
  constructor
  · rw [hfl]
    have hm := mul_le_mul_of_nonneg_right hr1 (le_of_lt hgrid)
    nlinarith [hm, hy, hhalf]
  · rw [hfl]
    have hm := mul_le_mul_of_nonneg_right hr2 (le_of_lt hgrid)
    nlinarith [hm, hy, hhalf]

set_option maxHeartbeats 1600000 in
/-- Rounding analysis of one scaled dimension `int(d * fl(s/M))` at image
magnitudes (`1 ≤ s < M ≤ 2^40`, `d ≤ M`): the truncated float result is
within one pixel of the exact floor `d * s / M`, never exceeds `s`, and for
the longer dimension (`d = M`) is at least `s - 1`. -/
theorem float_component (s M d : Nat) (hs : 1 ≤ s) (hsM : s < M)
    (hM : M ≤ 2 ^ 40) (hd : d ≤ M) :
    (⌊fl ((d : ℚ) * fl ((s : ℚ) / (M : ℚ)))⌋).toNat ≤ d * s / M + 1 ∧
    d * s / M ≤ (⌊fl ((d : ℚ) * fl ((s : ℚ) / (M : ℚ)))⌋).toNat + 1 ∧
    (⌊fl ((d : ℚ) * fl ((s : ℚ) / (M : ℚ)))⌋).toNat ≤ s ∧
    (d = M → s - 1 ≤ (⌊fl ((d : ℚ) * fl ((s : ℚ) / (M : ℚ)))⌋).toNat) := by
  have hM0 : (0 : ℚ) < (M : ℚ) := by
    have h : 0 < M := by omega
    exact_mod_cast h
  rcases Nat.eq_zero_or_pos d with hd0 | hd1
  · subst hd0
    have hz : ((0 : ℕ) : ℚ) * fl ((s : ℚ) / (M : ℚ)) = 0 := by
      push_cast
      ring
    rw [hz]
    have hfl0 : fl 0 = 0 := by
      unfold fl
      rw [if_neg (lt_irrefl 0)]
    rw [hfl0]
    refine ⟨by simp, by simp, by simp, ?_⟩
    intro h0M
    omega
  · set x : ℚ := (s : ℚ) / (M : ℚ) with hxdef
    have hs1 : (1 : ℚ) ≤ (s : ℚ) := by exact_mod_cast hs
    have hsM' : (s : ℚ) + 1 ≤ (M : ℚ) := by exact_mod_cast hsM
    have hM40 : (M : ℚ) ≤ 2 ^ 40 := by exact_mod_cast hM
    have hd1' : (1 : ℚ) ≤ (d : ℚ) := by exact_mod_cast hd1
    have hdM : (d : ℚ) ≤ (M : ℚ) := by exact_mod_cast hd
    have hx_pos : 0 < x := div_pos (by linarith) hM0
    have hMx : (M : ℚ) * x = (s : ℚ) := by
      rw [hxdef, ← mul_div_assoc, mul_comm,
        mul_div_cancel_right₀ _ (ne_of_gt hM0)]
    have heps_pos : (0 : ℚ) < eps := by norm_num [eps]
    have heps_lt : eps < 1 / 2 ^ 40 := by norm_num [eps]
    have heps1 : eps < 1 := by norm_num [eps]
    obtain ⟨hr_lo, hr_hi⟩ := fl_bounds hx_pos
    set r : ℚ := fl x with hrdef
    have hx_le1 : x ≤ 1 := by nlinarith [hMx, hsM', hM0]
    have hxeps : x * eps ≤ eps := by nlinarith [hx_le1, heps_pos, hx_pos]
    have hx_ge : 1 / (2 : ℚ) ^ 40 ≤ x := by
      rw [hxdef, div_le_div_iff (by positivity) hM0]
      nlinarith [hs1, hM40]
    have hr_pos : 0 < r := by
      have hex : eps < x := lt_of_lt_of_le heps_lt hx_ge
      linarith [hr_lo, hxeps]
    have hdr_pos : 0 < (d : ℚ) * r := mul_pos (by linarith) hr_pos
    obtain ⟨hV_lo, hV_hi⟩ := fl_bounds hdr_pos
    set V : ℚ := fl ((d : ℚ) * r) with hVdef
    set ev : ℚ := (d : ℚ) * x with hevdef
    clear_value x r V ev
    have hev_le_s : ev ≤ (s : ℚ) := by
      rw [hevdef]
      nlinarith [hMx, hdM, hx_pos]
    have hev_pos : 0 < ev := by
      rw [hevdef]
      exact mul_pos (by linarith) hx_pos
    have hs40 : (s : ℚ) ≤ 2 ^ 40 := by linarith [hsM', hM40]
    have hdeps : (d : ℚ) * (x * eps) ≤ 1 / 2 ^ 13 := by
      have h1 : (d : ℚ) * (x * eps) ≤ (d : ℚ) * eps :=
        mul_le_mul_of_nonneg_left hxeps (by linarith)
      have h2 : (d : ℚ) * eps ≤ 2 ^ 40 * eps :=
        mul_le_mul_of_nonneg_right (by linarith) (le_of_lt heps_pos)
      have h3 : (2 : ℚ) ^ 40 * eps = 1 / 2 ^ 13 := by norm_num [eps]
      linarith
    have hdr_hi : (d : ℚ) * r ≤ ev + 1 / 2 ^ 13 := by
      have h1 := mul_le_mul_of_nonneg_left hr_hi
        (by linarith : (0 : ℚ) ≤ (d : ℚ))
      have h2 : (d : ℚ) * (x + x * eps) = ev + (d : ℚ) * (x * eps) := by
        rw [hevdef]
        ring
      linarith [h1, h2, hdeps]
    have hdr_lo : ev - 1 / 2 ^ 13 ≤ (d : ℚ) * r := by
      have h1 := mul_le_mul_of_nonneg_left hr_lo
        (by linarith : (0 : ℚ) ≤ (d : ℚ))
      have h2 : (d : ℚ) * (x - x * eps) = ev - (d : ℚ) * (x * eps) := by
        rw [hevdef]
        ring
      linarith [h1, h2, hdeps]
    have hdr_hi' : (d : ℚ) * r ≤ 2 ^ 41 := by
      have hc : (2 : ℚ) ^ 40 + 1 / 2 ^ 13 ≤ 2 ^ 41 := by norm_num
      linarith [hdr_hi, hev_le_s, hs40]
    have hVeps : (d : ℚ) * r * eps ≤ 1 / 2 ^ 12 := by
      have h1 := mul_le_mul_of_nonneg_right hdr_hi' (le_of_lt heps_pos)
      have hc : (2 : ℚ) ^ 41 * eps = 1 / 2 ^ 12 := by norm_num [eps]
      linarith
    have hV_hi2 : V ≤ ev + 1 / 2 := by
      have hc : (1 : ℚ) / 2 ^ 13 + 1 / 2 ^ 12 ≤ 1 / 2 := by norm_num
      linarith [hV_hi, hdr_hi, hVeps]
    have hV_lo2 : ev - 1 / 2 ≤ V := by
      have hc : (1 : ℚ) / 2 ^ 13 + 1 / 2 ^ 12 ≤ 1 / 2 := by norm_num
      linarith [hV_lo, hdr_lo, hVeps]
    have hV_pos : 0 < V := by
      have h1 : 0 < (d : ℚ) * r * (1 - eps) :=
        mul_pos hdr_pos (by linarith)
      have h2 : (d : ℚ) * r * (1 - eps)
          = (d : ℚ) * r - (d : ℚ) * r * eps := by ring
      linarith [hV_lo, h1, h2]
    have hfV_nonneg : 0 ≤ ⌊V⌋ := Int.floor_nonneg.mpr (le_of_lt hV_pos)
    have hfev_nonneg : 0 ≤ ⌊ev⌋ := Int.floor_nonneg.mpr (le_of_lt hev_pos)
    have hev_cast : ev = ((d * s : ℕ) : ℚ) / ((M : ℕ) : ℚ) := by
      rw [hevdef, hxdef]
      push_cast
      ring
    have hfev : ⌊ev⌋.toNat = d * s / M := by
      rw [Int.floor_toNat, hev_cast, Nat.floor_div_nat, Nat.floor_natCast]
    have hfV_le : ⌊V⌋ ≤ ⌊ev⌋ + 1 := by
      have h1 : V < (⌊ev⌋ : ℚ) + 2 := by
        have h2 := Int.lt_floor_add_one ev
        linarith [hV_hi2]
      have h3 : ⌊V⌋ < ⌊ev⌋ + 2 := by
        rw [Int.floor_lt]
        push_cast
        linarith [h1]
      omega
    have hfE_le : ⌊ev⌋ ≤ ⌊V⌋ + 1 := by
      have h1 : ev < (⌊V⌋ : ℚ) + 2 := by
        have h2 := Int.lt_floor_add_one V
        linarith [hV_lo2]
      have h3 : ⌊ev⌋ < ⌊V⌋ + 2 := by
        rw [Int.floor_lt]
        push_cast
        linarith [h1]
      omega
    have hfV_le_s : ⌊V⌋ ≤ (s : ℤ) := by
      have h1 : V < (s : ℚ) + 1 := by linarith [hV_hi2, hev_le_s]
      have h2 : ⌊V⌋ < (s : ℤ) + 1 := by
        rw [Int.floor_lt]
        push_cast
        linarith
      omega
    set E : ℕ := d * s / M with hEdef
    refine ⟨by omega, by omega, by omega, ?_⟩
    intro hdM'
    have hev_eq : ev = (s : ℚ) := by
      rw [hevdef, hdM']
      exact hMx
    have h2 : ((s : ℤ) - 1 : ℤ) ≤ ⌊V⌋ := by
      rw [Int.le_floor]
      push_cast
      linarith [hV_lo2, hev_eq]
    omega

set_option maxHeartbeats 800000 in
/-- C1 (amended): whenever the longer dimension `max w h` strictly exceeds
`maxSide` (a positive integer; dimensions at image magnitudes, below
`2 ^ 40`), the program computes the ratio as the binary64 value of
`maxSide / max(w, h)` and rescales to `(int(w * ratio), int(h * ratio))`,
truncating each correctly rounded product downward; each output dimension
is within one pixel of the exact floor-based target
`⌊d * maxSide / max w h⌋`, and the output's longer dimension never exceeds
`floor(maxSide) = maxSide` but may fall one pixel short of it, because the
rounded products can truncate one below the exact value (the counterexample
`downscale_float_cex` shows 28 instead of 29). -/
theorem downscale_dims_float (maxSide w h : Nat) (hside : 1 ≤ maxSide)
    (hgt : maxSide < max w h) (hbound : max w h ≤ 2 ^ 40) :
    resizedDimsFloat maxSide w h
      = ((⌊fl ((w : ℚ) * fl ((maxSide : ℚ) / ((max w h : ℕ) : ℚ)))⌋).toNat,
         (⌊fl ((h : ℚ) * fl ((maxSide : ℚ) / ((max w h : ℕ) : ℚ)))⌋).toNat) ∧
    maxSide - 1 ≤ max (resizedDimsFloat maxSide w h).1
      (resizedDimsFloat maxSide w h).2 ∧
    max (resizedDimsFloat maxSide w h).1 (resizedDimsFloat maxSide w h).2
      ≤ maxSide ∧
    (resizedDims maxSide w h).1 ≤ (resizedDimsFloat maxSide w h).1 + 1 ∧
    (resizedDimsFloat maxSide w h).1 ≤ (resizedDims maxSide w h).1 + 1 ∧
    (resizedDims maxSide w h).2 ≤ (resizedDimsFloat maxSide w h).2 + 1 ∧
    (resizedDimsFloat maxSide w h).2 ≤ (resizedDims maxSide w h).2 + 1 := by
  obtain ⟨hw1, hw2, hw3, hw4⟩ :=
    float_component maxSide (max w h) w hside hgt hbound (Nat.le_max_left w h)
  obtain ⟨hh1, hh2, hh3, hh4⟩ :=
    float_component maxSide (max w h) h hside hgt hbound (Nat.le_max_right w h)
  have hM0 : (0 : ℚ) < ((max w h : ℕ) : ℚ) := by
    have h0 : 0 < max w h := by omega
    exact_mod_cast h0
  have hside' : (0 : ℚ) < (maxSide : ℚ) := by
    have h0 : 0 < maxSide := hside
    exact_mod_cast h0
  have hM40 : ((max w h : ℕ) : ℚ) ≤ 2 ^ 40 := by exact_mod_cast hbound
  have hsM' : (maxSide : ℚ) + 1 ≤ ((max w h : ℕ) : ℚ) := by exact_mod_cast hgt
  set x : ℚ := (maxSide : ℚ) / ((max w h : ℕ) : ℚ) with hxdef
  have hx_pos : 0 < x := div_pos hside' hM0
  have hMx : ((max w h : ℕ) : ℚ) * x = (maxSide : ℚ) := by
    rw [hxdef, ← mul_div_assoc, mul_comm,
      mul_div_cancel_right₀ _ (ne_of_gt hM0)]
  obtain ⟨_, hr_hi⟩ := fl_bounds hx_pos
  have heps_pos : (0 : ℚ) < eps := by norm_num [eps]
  have hx_le1 : x ≤ 1 := by nlinarith [hMx, hsM', hM0]
  have hxeps : x * eps ≤ eps := by nlinarith [hx_le1, heps_pos, hx_pos]
  have hr_lt1 : fl x < 1 := by
    have h1 : ((max w h : ℕ) : ℚ) * eps ≤ 2 ^ 40 * eps :=
      mul_le_mul_of_nonneg_right hM40 (le_of_lt heps_pos)
    have h2 : (2 : ℚ) ^ 40 * eps < 1 := by norm_num [eps]
    have h3 : ((max w h : ℕ) : ℚ) * (x + eps) < ((max w h : ℕ) : ℚ) := by
      have h4 : ((max w h : ℕ) : ℚ) * (x + eps)
          = (maxSide : ℚ) + ((max w h : ℕ) : ℚ) * eps := by
        rw [mul_add, hMx]
      linarith [h1, h2, hsM']
    have h5 : x + eps < 1 := by
      by_contra hcon
      push_neg at hcon
      have h6 := mul_le_mul_of_nonneg_left hcon (le_of_lt hM0)
      rw [mul_one] at h6
      linarith [h3]
    linarith [hr_hi, hxeps]
  have hbranch : resizedDimsFloat maxSide w h
      = ((⌊fl ((w : ℚ) * fl x)⌋).toNat, (⌊fl ((h : ℚ) * fl x)⌋).toNat) := by
    simp only [resizedDimsFloat]
    rw [← hxdef, if_pos hr_lt1]
  have hexact : resizedDims maxSide w h
      = (w * maxSide / max w h, h * maxSide / max w h) := by
    unfold resizedDims
    rw [if_pos hgt]
  rw [hbranch, hexact]
  refine ⟨rfl, ?_, ?_, ?_, ?_, ?_, ?_⟩
  · rcases Nat.le_total h w with hle | hle
    · have hwM : w = max w h := (Nat.max_eq_left hle).symm
      exact le_trans (hw4 hwM) (Nat.le_max_left _ _)
    · have hhM : h = max w h := (Nat.max_eq_right hle).symm
      exact le_trans (hh4 hhM) (Nat.le_max_right _ _)
  · exact Nat.max_le.mpr ⟨hw3, hh3⟩
  · exact hw2
  · exact hw1
  · exact hh2
  · exact hh1

/-- C1, counterexample to the claim as stated: at `max_side = 29` on a
100 x 50 image, the program computes `ratio = 29/100` as the binary64 value
`0.2899999999999999800...` (significand 5224175567749775, exponent -54),
then `100 * ratio` rounds to `28.9999999999999964...` (significand
8162774324609023, exponent -48), and `int(...)` truncates to 28: the
output is 28 x 14 and its longer dimension is 28, not
`floor(maxSide) = 29`. -/
theorem downscale_float_cex :
    (29 : Nat) < max 100 50 ∧
    resizedDimsFloat 29 100 50 = (28, 14) ∧
    max (resizedDimsFloat 29 100 50).1 (resizedDimsFloat 29 100 50).2
      ≠ 29 := by
  have hmax : (max 100 50 : ℕ) = 100 := rfl
  have hlogr : ratLog2 ((29 : ℚ) / 100) = -2 := by
    have hinv : ((29 : ℚ) / 100)⁻¹ = 100 / 29 := by norm_num
    have hceil : ⌈((29 : ℚ) / 100)⁻¹⌉₊ = 4 := by
      rw [hinv, Nat.ceil_eq_iff (by norm_num)]
      constructor <;> norm_num
    unfold ratLog2
    rw [if_neg (by norm_num), hceil]
    decide
  have hrval : fl ((29 : ℚ) / 100)
      = 5224175567749775 / 18014398509481984 := by
    rw [fl_eq_of_log (by norm_num) hlogr,
      show (-(-2 - 52 : ℤ)) = ((54 : ℕ) : ℤ) by norm_num,
      show ((-2 : ℤ) - 52) = -((54 : ℕ) : ℤ) by norm_num,
      twoPow_ofNat, twoPow_negOfNat,
      show (29 : ℚ) / 100 * 2 ^ 54 = 130604389193744384 / 25 by norm_num,
      rne_eq_floor (n := 5224175567749775) (by norm_num) (by norm_num)]
    norm_num
  have hlog2 : ratLog2 ((130604389193744375 : ℚ) / 4503599627370496)
      = 4 := by
    have hfloor : ⌊(130604389193744375 : ℚ) / 4503599627370496⌋₊ = 28 := by
      rw [Nat.floor_eq_iff (by positivity)]
      constructor <;> norm_num
    unfold ratLog2
    rw [if_pos (by norm_num), hfloor]
    decide
  have hV2 : fl ((130604389193744375 : ℚ) / 4503599627370496)
      = 8162774324609023 / 281474976710656 := by
    rw [fl_eq_of_log (by norm_num) hlog2,
      show (-(4 - 52 : ℤ)) = ((48 : ℕ) : ℤ) by norm_num,
      show ((4 : ℤ) - 52) = -((48 : ℕ) : ℤ) by norm_num,
      twoPow_ofNat, twoPow_negOfNat,
      show (130604389193744375 : ℚ) / 4503599627370496 * 2 ^ 48
        = 130604389193744375 / 16 by norm_num,
      rne_eq_floor (n := 8162774324609023) (by norm_num) (by norm_num)]
    norm_num
  have hlog3 : ratLog2 ((130604389193744375 : ℚ) / 9007199254740992)
      = 3 := by
    have hfloor : ⌊(130604389193744375 : ℚ) / 9007199254740992⌋₊ = 14 := by
      rw [Nat.floor_eq_iff (by positivity)]
      constructor <;> norm_num
    unfold ratLog2
    rw [if_pos (by norm_num), hfloor]
    decide
  have hV3 : fl ((130604389193744375 : ℚ) / 9007199254740992)
      = 8162774324609023 / 562949953421312 := by
    rw [fl_eq_of_log (by norm_num) hlog3,
      show (-(3 - 52 : ℤ)) = ((49 : ℕ) : ℤ) by norm_num,
      show ((3 : ℤ) - 52) = -((49 : ℕ) : ℤ) by norm_num,
      twoPow_ofNat, twoPow_negOfNat,
      show (130604389193744375 : ℚ) / 9007199254740992 * 2 ^ 49
        = 130604389193744375 / 16 by norm_num,
      rne_eq_floor (n := 8162774324609023) (by norm_num) (by norm_num)]
    norm_num
  have hres : resizedDimsFloat 29 100 50 = (28, 14) := by
    have hfloor2 : ⌊(8162774324609023 : ℚ) / 281474976710656⌋ = 28 :=
      Int.floor_eq_iff.mpr (by constructor <;> norm_num)
    have hfloor3 : ⌊(8162774324609023 : ℚ) / 562949953421312⌋ = 14 :=
      Int.floor_eq_iff.mpr (by constructor <;> norm_num)
    simp only [resizedDimsFloat, hmax, Nat.cast_ofNat]
    rw [hrval, if_pos (by norm_num),
      show (100 : ℚ) * (5224175567749775 / 18014398509481984)
        = 130604389193744375 / 4503599627370496 by norm_num,
      show (50 : ℚ) * (5224175567749775 / 18014398509481984)
        = 130604389193744375 / 9007199254740992 by norm_num,
      hV2, hV3, hfloor2, hfloor3]
    rfl
  refine ⟨by norm_num, hres, ?_⟩
  rw [hres]
  decide

/-- Witness for the amended C1 at a concrete input: a 4000 x 3000 image at
`maxSide = 1280` satisfies all the amended bounds. -/
theorem downscale_dims_float_witness :
    resizedDimsFloat 1280 4000 3000
      = ((⌊fl (((4000 : ℕ) : ℚ)
            * fl (((1280 : ℕ) : ℚ) / ((max 4000 3000 : ℕ) : ℚ)))⌋).toNat,
         (⌊fl (((3000 : ℕ) : ℚ)
            * fl (((1280 : ℕ) : ℚ) / ((max 4000 3000 : ℕ) : ℚ)))⌋).toNat) ∧
    1280 - 1 ≤ max (resizedDimsFloat 1280 4000 3000).1
      (resizedDimsFloat 1280 4000 3000).2 ∧
    max (resizedDimsFloat 1280 4000 3000).1
      (resizedDimsFloat 1280 4000 3000).2 ≤ 1280 ∧
    (resizedDims 1280 4000 3000).1 ≤ (resizedDimsFloat 1280 4000 3000).1 + 1 ∧
    (resizedDimsFloat 1280 4000 3000).1 ≤ (resizedDims 1280 4000 3000).1 + 1 ∧
    (resizedDims 1280 4000 3000).2 ≤ (resizedDimsFloat 1280 4000 3000).2 + 1 ∧
    (resizedDimsFloat 1280 4000 3000).2 ≤ (resizedDims 1280 4000 3000).2 + 1 :=
  downscale_dims_float 1280 4000 3000 (by decide) (by decide) (by decide)

/-- C2: when the longer dimension is within `maxSide`, the resize branch is
not taken and the dimensions are returned unchanged; moreover the resize
step never increases either dimension on any input (no upscaling ever).
The positivity hypothesis `0 < max w h` reflects that a decoded image has at
least one pixel (on a 0 x 0 input the Python code raises `ZeroDivisionError`
computing the ratio and produces a failure result, not an output image). -/
theorem no_upscale (maxSide w h : Nat) (hpos : 0 < max w h)
    (hle : max w h ≤ maxSide) :
    resizedDims maxSide w h = (w, h) ∧
    ∀ s w2 h2 : Nat, (resizedDims s w2 h2).1 ≤ w2 ∧
      (resizedDims s w2 h2).2 ≤ h2 := by
  constructor
  · unfold resizedDims
    rw [if_neg (Nat.not_lt.mpr hle)]
  · intro s w2 h2
    unfold resizedDims
    by_cases hc : s < max w2 h2
    · rw [if_pos hc]
      have hM2 : 0 < max w2 h2 := Nat.lt_of_le_of_lt (Nat.zero_le _) hc
      have hs : s ≤ max w2 h2 := Nat.le_of_lt hc
      constructor
      · calc w2 * s / max w2 h2 ≤ w2 * max w2 h2 / max w2 h2 :=
              Nat.div_le_div_right (Nat.mul_le_mul_left w2 hs)
          _ = w2 := mul_div_cancel_pos hM2 w2
      · calc h2 * s / max w2 h2 ≤ h2 * max w2 h2 / max w2 h2 :=
              Nat.div_le_div_right (Nat.mul_le_mul_left h2 hs)
          _ = h2 := mul_div_cancel_pos hM2 h2
    · rw [if_neg hc]
      exact ⟨Nat.le_refl w2, Nat.le_refl h2⟩

/-- Witness for C2 at a concrete input: an 800 x 600 image with
`maxSide = 1280` keeps its dimensions. -/
theorem no_upscale_witness :
    resizedDims 1280 800 600 = (800, 600) ∧
    ∀ s w2 h2 : Nat, (resizedDims s w2 h2).1 ≤ w2 ∧
      (resizedDims s w2 h2).2 ≤ h2 :=
  no_upscale 1280 800 600 (by decide) (by decide)

/-- `exif_transpose` either keeps the dimensions or swaps them, so the
longer dimension is unchanged. -/
theorem exifTranspose_max (img : Image) :
    max (exifTranspose img).width (exifTranspose img).height
      = max img.width img.height := by
  cases hl : List.lookup orientationTag (img.exifInfo.getD []) with
  | none => simp [exifTranspose, hl]
  | some o =>
    by_cases h2 : 2 ≤ o ∧ o ≤ 8
    · by_cases h5 : 5 ≤ o
      · simp [exifTranspose, hl, h2, h5, Nat.max_comm]
      · simp [exifTranspose, hl, h2, h5]
    · simp [exifTranspose, hl, h2]

/-- `normalizeMode` only touches the mode field. -/
theorem normalizeMode_dims (img : Image) :
    (normalizeMode img).width = img.width ∧
    (normalizeMode img).height = img.height := by
  unfold normalizeMode
  split <;> exact ⟨rfl, rfl⟩

/-- C3: when decode, mkdir and save all succeed (and the image has at least
one pixel, so the ratio computation does not raise), the JPEG written by
`process_image` carries exactly the EXIF block and ICC profile captured from
the decoded image's `info` before any processing: each is present in the
output if and only if it was non-empty at capture time, and then with
identical content; an absent or empty block in the source yields an absent
block in the output. In particular the output EXIF block is the original
one, including the orientation tag that `exif_transpose` strips from its
working copy, which is only provable because capture precedes the
transpose. -/
theorem metadata_roundtrip (img : Image) (env : Env) (inName outName : String)
    (maxSide q : Nat) (hdec : env.decoded = Except.ok img)
    (hmk : env.mkdirErr = none) (hsv : env.saveErr = none)
    (hpos : 0 < max img.width img.height) :
    ∃ j : Jpeg,
      written (processImage env inName outName maxSide q).2 = some j ∧
      j.exif = (if img.exifInfo.getD [] = [] then none
                else some (img.exifInfo.getD [])) ∧
      j.icc = (match img.iccInfo with
               | none => none
               | some b => if b = [] then none else some b) := by
  have htr := exifTranspose_max img
  have hdims := normalizeMode_dims (exifTranspose img)
  have hne : ¬ (max (normalizeMode (exifTranspose img)).width
      (normalizeMode (exifTranspose img)).height = 0) := by
    rw [hdims.1, hdims.2, htr]
    omega
  by_cases hdir : env.outDirExists <;>
    simp [processImage, hdec, hmk, hsv, hne, hdir, written]

/-- Witness for C3 at a concrete input. -/
theorem metadata_roundtrip_witness :
    ∃ j : Jpeg,
      written (processImage envOkMeta ("a.jpg") ("a.jpg") 1280 65).2 = some j ∧
      j.exif = (if imgWithMeta.exifInfo.getD [] = [] then none
                else some (imgWithMeta.exifInfo.getD [])) ∧
      j.icc = (match imgWithMeta.iccInfo with
               | none => none
               | some b => if b = [] then none else some b) :=
  metadata_roundtrip imgWithMeta envOkMeta ("a.jpg") ("a.jpg") 1280 65
    rfl rfl rfl (by decide)

/-- C4: `process_image` is total and its result always carries the source
file name: for every environment (including every injected decode, mkdir or
save exception and the division-by-zero case) it returns either an `ok` or
an `err` result for that very file, and never propagates an exception.
Consequently mapping the transform over a task list yields exactly one
result per task, whatever errors individual files hit, so one file's
failure never aborts the others. -/
theorem errors_contained (env : Env) (inName outName : String)
    (maxSide q : Nat) :
    ((∃ d, (processImage env inName outName maxSide q).1
        = TransformResult.ok inName d) ∨
     (∃ c, (processImage env inName outName maxSide q).1
        = TransformResult.err inName c)) ∧
    ∀ tasks : List (String × Env),
      (tasks.map (fun t => (processImage t.2 t.1 outName maxSide q).1)).length
        = tasks.length := by
  constructor
  · cases hd : env.decoded with
    | error e => exact Or.inr ⟨e, by simp [processImage, hd]⟩
    | ok img0 =>
      by_cases hz : max (normalizeMode (exifTranspose img0)).width
          (normalizeMode (exifTranspose img0)).height = 0
      · exact Or.inr ⟨"division by zero", by simp [processImage, hd, hz]⟩
      · cases hm : env.mkdirErr with
        | some e => exact Or.inr ⟨e, by simp [processImage, hd, hz, hm]⟩
        | none =>
          cases hs : env.saveErr with
          | some e =>
            exact Or.inr ⟨e, by simp [processImage, hd, hz, hm, hs]⟩
          | none =>
            exact Or.inl ⟨outName, by simp [processImage, hd, hz, hm, hs]⟩
  · intro tasks
    exact List.length_map tasks _

/-- C9 (amended): a failing `process_image` call writes no file, and a
successful one writes exactly one; but a failure is not free of side
effects in general, because the output directory is created before the
encode step (see the counterexample). -/
theorem effects_on_failure (env : Env) (inName outName : String)
    (maxSide q : Nat) :
    (∀ src cause,
      (processImage env inName outName maxSide q).1
        = TransformResult.err src cause →
      ((processImage env inName outName maxSide q).2.filter isWrite) = []) ∧
    (∀ src dst,
      (processImage env inName outName maxSide q).1
        = TransformResult.ok src dst →
      ∃ j, ((processImage env inName outName maxSide q).2.filter isWrite)
        = [Effect.wrote outName j]) := by
  cases hd : env.decoded with
  | error e =>
    refine ⟨fun src cause _ => by simp [processImage, hd], ?_⟩
    intro src dst hok
    simp [processImage, hd] at hok
  | ok img0 =>
    by_cases hz : max (normalizeMode (exifTranspose img0)).width
        (normalizeMode (exifTranspose img0)).height = 0
    · refine ⟨fun src cause _ => by simp [processImage, hd, hz], ?_⟩
      intro src dst hok
      simp [processImage, hd, hz] at hok
    · cases hm : env.mkdirErr with
      | some e =>
        refine ⟨fun src cause _ => by simp [processImage, hd, hz, hm], ?_⟩
        intro src dst hok
        simp [processImage, hd, hz, hm] at hok
      | none =>
        cases hs : env.saveErr with
        | some e =>
          refine ⟨fun src cause _ => ?_, ?_⟩
          · by_cases hdir : env.outDirExists <;>
              simp [processImage, hd, hz, hm, hs, hdir, isWrite]
          · intro src dst hok
            simp [processImage, hd, hz, hm, hs] at hok
        | none =>
          refine ⟨fun src cause herr => ?_, fun src dst _ => ?_⟩
          · simp [processImage, hd, hz, hm, hs] at herr
          · by_cases hdir : env.outDirExists <;>
              simp [processImage, hd, hz, hm, hs, hdir, isWrite]

/-- Counterexample to C9 as stated: this call produces a failure result,
yet its effect list is non-empty — the output directory was created (line
74 runs before `img.save` on line 80), a side effect that survives the
failure. -/
theorem effects_on_failure_cex :
    (processImage envSaveFail ("photo.png") ("photo.jpg") 1280 65).1
      = TransformResult.err ("photo.png") ("cannot write mode I as JPEG") ∧
    (processImage envSaveFail ("photo.png") ("photo.jpg") 1280 65).2
      = [Effect.createdDir] := by
  constructor <;> decide

/-- Witness for the amended C9 at a concrete input: the failing call wrote
no file, and a succeeding call writes exactly one. -/
theorem effects_on_failure_witness :
    ((processImage envSaveFail ("photo.png") ("photo.jpg") 1280 65).2.filter
      isWrite) = [] :=
  (effects_on_failure envSaveFail ("photo.png") ("photo.jpg") 1280 65).1
    ("photo.png") ("cannot write mode I as JPEG") (by decide)

/-- C5: the processed set is exactly the direct children passing the
case-insensitive extension-and-regular-file filter, in discovery order;
sequential execution yields one result per eligible file, and parallel
execution collected in any completion order (any permutation of the
submitted indices) yields a permutation of the sequential results — so no
eligible file is dropped and none is processed twice under either
strategy. -/
theorem dispatch_exactly_once (entries : List Entry)
    (tf : String → TransformResult)
    (order : List (Fin (discover entries).length))
    (hord : order.Perm (List.finRange (discover entries).length)) :
    discover entries = entries.filter (fun e =>
      decide (strLower (pySuffix e.name) ∈ exts) && e.isFile) ∧
    (runSeq tf (discover entries)).length = (discover entries).length ∧
    (runPar tf (discover entries) order).Perm
      (runSeq tf (discover entries)) := by
  refine ⟨rfl, List.length_map _ _, ?_⟩
  have h1 : (runPar tf (discover entries) order).Perm
      ((List.finRange (discover entries).length).map
        (fun i => tf ((discover entries).get i).name)) :=
    hord.map _
  have h2 : (List.finRange (discover entries).length).map
      (fun i => tf ((discover entries).get i).name)
      = runSeq tf (discover entries) := by
    rw [show (fun i => tf (((discover entries).get i)).name)
        = (fun e : Entry => tf e.name) ∘ (discover entries).get from rfl,
      ← List.map_map, List.finRange_map_get]
    rfl
  exact h2 ▸ h1

/-- Witness for C5 at a concrete input: of the four entries only `a.JPG`
and `d.png` are eligible, and collecting the parallel results in reversed
completion order still yields a permutation of the sequential results. -/
theorem dispatch_exactly_once_witness :
    discover entriesMix = entriesMix.filter (fun e =>
      decide (strLower (pySuffix e.name) ∈ exts) && e.isFile) ∧
    (runSeq tfOkStub (discover entriesMix)).length
      = (discover entriesMix).length ∧
    (runPar tfOkStub (discover entriesMix) orderSwap).Perm
      (runSeq tfOkStub (discover entriesMix)) :=
  dispatch_exactly_once entriesMix tfOkStub orderSwap (by decide)

/-- C10: the destination mapping `compressed/<stem>.jpg` drops only the
final extension and is not injective: `a.jpg` and `a.png` are distinct
eligible siblings assigned the identical destination `a.jpg`; running both
transforms leaves a single output file holding the later file's content,
while each call separately reports success. -/
theorem destination_collision :
    destName ("a.jpg") = "a.jpg" ∧
    destName ("a.png") = "a.jpg" ∧
    ("a.jpg" : String) ≠ "a.png" ∧
    eligible { name := "a.jpg", isFile := true } = true ∧
    eligible { name := "a.png", isFile := true } = true ∧
    runWrites [("a.jpg", "pixelsFromAJpg"), ("a.png", "pixelsFromAPng")]
      = [("a.jpg", "pixelsFromAPng")] ∧
    (processImage envOkMeta ("a.jpg") (destName ("a.jpg")) 1280 65).1
      = TransformResult.ok ("a.jpg") ("a.jpg") ∧
    (processImage envOkMeta ("a.png") (destName ("a.png")) 1280 65).1
      = TransformResult.ok ("a.png") ("a.jpg") := by
  refine ⟨?_, ?_, ?_, ?_, ?_, ?_, ?_, ?_⟩ <;> decide

/-- Sequential traces never exceed `max a 1` in-flight transforms when the
accumulator starts at `a` and nothing is in flight. -/
theorem seqEvents_aux_le (tf : String → TransformResult) :
    ∀ (files : List Entry) (a : Nat),
      maxInFlightAux (seqEvents tf files) 0 a ≤ max a 1
  | [], a => Nat.le_max_left a 1
  | e :: rest, a => by
    show maxInFlightAux (seqEvents tf rest) 0 (max a 1) ≤ max a 1
    calc maxInFlightAux (seqEvents tf rest) 0 (max a 1)
        ≤ max (max a 1) 1 := seqEvents_aux_le tf rest (max a 1)
      _ = max a 1 := by omega

/-- C6: the strategy is chosen once from the locality classification. A
network directory is processed strictly sequentially: its trace never has
more than one transform in flight, and results are printed in discovery
order, each as soon as it is produced. A local directory gets a worker pool
of `os.cpu_count() or 1` workers, which is at least 1 and equals 1 exactly
when the CPU count is unavailable. -/
theorem strategy_selection (net : Bool) (cpuCount : Option Nat)
    (tf : String → TransformResult) (files : List Entry) :
    (net = true → selectStrategy net cpuCount = Strategy.sequential ∧
      maxInFlight (seqEvents tf files) ≤ 1 ∧
      reportLines (seqEvents tf files)
        = files.map (fun e => render (tf e.name))) ∧
    (net = false →
      selectStrategy net cpuCount = Strategy.parallel (coresOf cpuCount) ∧
      1 ≤ coresOf cpuCount ∧ (cpuCount = none → coresOf cpuCount = 1)) := by
  constructor
  · intro hnet
    refine ⟨by simp [selectStrategy, hnet], ?_, ?_⟩
    · have h := seqEvents_aux_le tf files 0
      simpa [maxInFlight] using h
    · induction files with
      | nil => rfl
      | cons e rest ih => simp [seqEvents, reportLines, ih]
  · intro hnet
    refine ⟨by simp [selectStrategy, hnet], ?_, ?_⟩
    · cases cpuCount with
      | none => exact Nat.le_refl 1
      | some n =>
        by_cases hn : n = 0 <;> simp [coresOf, hn] <;> omega
    · intro hc
      rw [hc]
      rfl

/-- Witness for C6 at concrete inputs: a network run over one file is
sequential with at most one transform in flight and ordered reporting, and
a local run with unavailable CPU count gets a one-worker pool. -/
theorem strategy_selection_witness :
    (selectStrategy true (some 8) = Strategy.sequential ∧
      maxInFlight (seqEvents tfOkStub entriesMix) ≤ 1 ∧
      reportLines (seqEvents tfOkStub entriesMix)
        = entriesMix.map (fun e => render (tfOkStub e.name))) ∧
    (selectStrategy false none = Strategy.parallel (coresOf none) ∧
      1 ≤ coresOf none ∧ (none = (none : Option Nat) → coresOf none = 1)) :=
  ⟨(strategy_selection true (some 8) tfOkStub entriesMix).1 rfl,
   (strategy_selection false none tfOkStub entriesMix).2 rfl⟩

/-- C7: the classifier returns network for every UNC path; for a
drive-letter path with a working probe it returns network exactly when the
drive type is `DRIVE_REMOTE` (4); and whenever the probe is unavailable or
fails it returns local (false). Being a total Lean function into Bool, it
never raises and has no side effects. -/
theorem network_classifier (probe : Option (String → Nat))
    (sPath driveAttr : String) :
    (sPath.toList.take 2 = ['\\', '\\'] →
      isNetworkPath probe sPath driveAttr = true) ∧
    (sPath.toList.take 2 ≠ ['\\', '\\'] →
      ∀ f, probe = some f → driveOf sPath driveAttr ≠ "" →
        (isNetworkPath probe sPath driveAttr = true ↔
          f (driveOf sPath driveAttr ++ "\\") = 4)) ∧
    (sPath.toList.take 2 ≠ ['\\', '\\'] → probe = none →
      isNetworkPath probe sPath driveAttr = false) := by
  refine ⟨?_, ?_, ?_⟩
  · intro h
    have h' : List.take 2 sPath.data = ['\\', '\\'] := h
    simp [isNetworkPath, h']
  · intro h f hp hd
    have h' : ¬(List.take 2 sPath.data = ['\\', '\\']) := h
    simp [isNetworkPath, h', hp, hd]
  · intro h hp
    have h' : ¬(List.take 2 sPath.data = ['\\', '\\']) := h
    by_cases hd : driveOf sPath driveAttr = "" <;>
      simp [isNetworkPath, h', hp, hd]

/-- Witness for C7 at concrete inputs: a UNC path is network even with no
probe available; drive `Z:` is network exactly as the probe reports remote;
and with the probe unavailable a drive-letter path is local. -/
theorem network_classifier_witness :
    isNetworkPath none ("\\\\server\\share\\photos") ("") = true ∧
    (isNetworkPath (some driveProbeZ) ("Z:\\photos") ("Z:") = true ↔
      driveProbeZ ("Z:" ++ "\\") = 4) ∧
    isNetworkPath none ("Z:\\photos") ("Z:") = false :=
  ⟨(network_classifier none ("\\\\server\\share\\photos") ("")).1 (by decide),
   (network_classifier (some driveProbeZ) ("Z:\\photos") ("Z:")).2.1
     (by decide) driveProbeZ rfl (by decide),
   (network_classifier none ("Z:\\photos") ("Z:")).2.2 (by decide) rfl⟩

/-- C8: the exit status is nonzero exactly when the target is missing or
not a directory, and then the outcome is `configError`, which carries no
results — no file processing happened. An existing directory with no
eligible files exits 0 with the no-images notice. Otherwise the run
processes the eligible files and exits 0 for every transform outcome `tf`,
including one that fails on every file. -/
theorem exit_status (cfg : MainCfg) (tf : String → TransformResult) :
    ((mainRun cfg tf).2 ≠ 0 ↔ (cfg.dirExists && cfg.dirIsDir) = false) ∧
    ((cfg.dirExists && cfg.dirIsDir) = false →
      (mainRun cfg tf).1 = MainOutcome.configError) ∧
    ((cfg.dirExists && cfg.dirIsDir) = true → discover cfg.entries = [] →
      mainRun cfg tf = (MainOutcome.noImages, 0)) ∧
    ((cfg.dirExists && cfg.dirIsDir) = true → discover cfg.entries ≠ [] →
      (mainRun cfg tf).2 = 0 ∧ (mainRun cfg tf).1
        = MainOutcome.processed (runSeq tf (discover cfg.entries))) := by
  by_cases hc : (cfg.dirExists && cfg.dirIsDir) = true
  · by_cases he : discover cfg.entries = []
    · refine ⟨?_, ?_, ?_, ?_⟩
      · simp [mainRun, hc, he]
      · intro h
        rw [hc] at h
        exact absurd h (by decide)
      · intro _ _
        simp [mainRun, hc, he]
      · intro _ hne
        exact absurd he hne
    · refine ⟨?_, ?_, ?_, ?_⟩
      · simp [mainRun, hc, List.isEmpty_iff, he]
      · intro h
        rw [hc] at h
        exact absurd h (by decide)
      · intro _ h
        exact absurd h he
      · intro _ _
        simp [mainRun, hc, List.isEmpty_iff, he]
  · have hc' : (cfg.dirExists && cfg.dirIsDir) = false := by
      revert hc
      cases cfg.dirExists && cfg.dirIsDir <;> simp
    refine ⟨?_, ?_, ?_, ?_⟩
    · simp [mainRun, hc']
    · intro _
      simp [mainRun, hc']
    · intro h
      exact absurd h hc
    · intro h
      exact absurd h hc

/-- Witness for C8 at concrete inputs: missing target gives configError,
an imageless directory gives the notice with exit 0, and a directory whose
every transform fails still exits 0 with one result per eligible file. -/
theorem exit_status_witness :
    (mainRun cfgMissing tfOkStub).1 = MainOutcome.configError ∧
    mainRun cfgNoImages tfOkStub = (MainOutcome.noImages, 0) ∧
    ((mainRun cfgWithImages tfErrStub).2 = 0 ∧
      (mainRun cfgWithImages tfErrStub).1 = MainOutcome.processed
        (runSeq tfErrStub (discover cfgWithImages.entries))) :=
  ⟨(exit_status cfgMissing tfOkStub).2.1 rfl,
   (exit_status cfgNoImages tfOkStub).2.2.1 rfl (by decide),
   (exit_status cfgWithImages tfErrStub).2.2.2 rfl (by decide)⟩

end ResizeCompress
